import Mathlib

/-!
Shallow embedding of the data-ingestion module (src/backend/main.py):
file detection (`FileDetector.detect_files`), per-file metadata extraction
(`MetadataExtractor.extract_metadata` and its format branches), the
ingestion logger (`IngestionLogger`: append-only history plus the
path-keyed metadata table), and the orchestrating pipeline
(`DataIngestionPipeline.run_ingestion`), together with theorems about the
specified properties.

Modelling conventions:
- The filesystem and the external libraries (hashlib, pandas, json) are an
  explicit environment: each file carries the outcomes of the system calls
  and library calls the source performs on it (`ExtractEnv`).  A call that
  can raise is an `Except String` value; the source's try/except structure
  is translated faithfully (which handler sees which failure).
- Timestamps are naturals read from an explicit clock parameter; the
  source formats them with `datetime`, which does not affect any property
  proved here.
- Log-store persistence is modelled on its happy path: the source
  swallows all I/O errors inside the store, and the persisted JSON files
  are modelled as the in-memory history list and metadata table.
-/

/-- Python `str.lower()` applied to an extension string. -/
def lowerStr (s : String) : String := String.mk (s.toList.map Char.toLower)

/-- `FileDetector.SUPPORTED_EXTENSIONS` from the source. -/
def SUPPORTED_EXTENSIONS : List String :=
  [".csv", ".xlsx", ".xls", ".json", ".parquet", ".txt", ".tsv"]

/-- A filesystem path as the source sees it: the full path string, the
base name (`Path.name`) and the extension (`Path.suffix`, possibly mixed
case). -/
structure FileRef where
  path : String
  name : String
  suffix : String
deriving DecidableEq, Repr

/-- One entry produced by `Path.glob`: the file reference plus whether it
is a regular file (`Path.is_file`). -/
structure FsEntry where
  ref : FileRef
  isFile : Bool
deriving DecidableEq, Repr

/-- What the filesystem answers about one watched directory: existence,
directory-ness, and the entries enumerated by `glob("*")` (top level) and
`glob("**/*")` (recursive). -/
structure DirInfo where
  dirExists : Bool
  isDir : Bool
  topLevel : List FsEntry
  recursiveEntries : List FsEntry
deriving Repr

/-- Result of `Path.stat()`: size and the two timestamps the source
reads. -/
structure FStat where
  size : Nat
  ctime : Nat
  mtime : Nat
deriving DecidableEq, Repr

/-- Per-sheet facts produced by the pandas Excel reads in
`_extract_excel_metadata` (pandas is an external collaborator; the
workbook read either raises or yields these facts per sheet). -/
structure SheetInfo where
  rowCount : Nat
  columnCount : Nat
  columnNames : List String
  dataTypes : List (String × String)
deriving DecidableEq, Repr

/-- One element of a JSON array as far as `_extract_json_metadata`
inspects it: a JSON object (only its key list is ever read) or anything
else (only its type name could matter). -/
inductive PyJsonElem where
  | objElem (keys : List String)
  | otherElem (typeName : String)
deriving DecidableEq, Repr

/-- A parsed JSON document as far as `_extract_json_metadata` inspects
it: a list, an object (key list), or any other value (type name). -/
inductive PyJsonDoc where
  | arrDoc (elems : List PyJsonElem)
  | objDoc (keys : List String)
  | otherDoc (typeName : String)
deriving DecidableEq, Repr

/-- The dataframe facts `pd.read_parquet` yields in
`_extract_parquet_metadata`. -/
structure PandasDf where
  nRows : Nat
  columnNames : List String
  dataTypes : List (String × String)
deriving DecidableEq, Repr

/-- The runtime environment of one `extract_metadata` call: the outcome
of each fallible system/library call the source performs.  `statRes` is
`Path.stat()`; `checksumRead` is the `open`/read inside
`_calculate_checksum`; `contentRead` is the file content seen by the CSV
branch (both its `pd.read_csv` sample and its line-count read);
`excelRes`, `jsonRes`, `parquetRes` are the respective library calls. -/
structure ExtractEnv where
  statRes : Except String FStat
  checksumRead : Except String (List Char)
  contentRead : Except String (List Char)
  excelRes : Except String (List (String × SheetInfo))
  jsonRes : Except String PyJsonDoc
  parquetRes : Except String PandasDf

/-- The format-specific part of a metadata record: the keys
`_extract_*_metadata` merge into the record, including the branch-scoped
error keys (`csv_error`, `excel_error`, `json_error`, `parquet_error`).
`base` is the absence of format-specific keys (e.g. a `.txt` file). -/
inductive FormatMeta where
  | base
  | csv (rowCount : Int) (columnCount : Nat) (columnNames : List String)
      (dataTypes : List (String × String))
  | csvError (msg : String)
  | excel (sheetCount : Nat) (sheetNames : List String)
      (sheetsInfo : List (String × SheetInfo))
  | excelError (msg : String)
  | jsonArr (recordCount : Nat) (sampleKeys : Option (List String))
  | jsonObj (topLevelKeys : List String)
  | jsonOther (typeName : String)
  | jsonError (msg : String)
  | parquet (rowCount : Nat) (columnCount : Nat) (columnNames : List String)
      (dataTypes : List (String × String))
  | parquetError (msg : String)
deriving DecidableEq, Repr

/-- A metadata record as returned by `extract_metadata`: either the
normal record (every field the source's dict literal sets, plus the
format-specific part) or the error-shaped record
`{file_path, error, extraction_time}` built in the outer except handler.
The top-level `error` key is present exactly on the `err` constructor. -/
inductive Metadata where
  | ok (filePath fileName : String) (fileSize : Nat) (fileExtension : String)
      (createdTime modifiedTime : Nat) (checksum : Option String)
      (extractionTime : Nat) (fmt : FormatMeta)
  | err (filePath : String) (errorMsg : String) (extractionTime : Nat)
deriving DecidableEq, Repr

/-- Python `'error' in metadata`: true exactly on the error-shaped
record. -/
def hasError : Metadata → Bool
  | .err .. => true
  | .ok .. => false

/-- Python `metadata.get('file_path', ...)`: both record shapes carry the
file path. -/
def metaFilePath : Metadata → String
  | .ok fp _ _ _ _ _ _ _ _ => fp
  | .err fp _ _ => fp

/-- The `checksum` field of a record (`none` both for a null checksum and
for the error-shaped record, which has no checksum key). -/
def metaChecksum : Metadata → Option String
  | .ok _ _ _ _ _ _ ck _ _ => ck
  | .err .. => none

/-- A record with its `extraction_time` field zeroed, used to compare
records up to the wall-clock instant of extraction. -/
def stripExtractionTime : Metadata → Metadata
  | .ok fp fn sz ex ct mt ck _ fmt => .ok fp fn sz ex ct mt ck 0 fmt
  | .err fp e _ => .err fp e 0

/-- Content digest: hashlib is an external collaborator; the digest is
modelled as an injective deterministic function of the file content,
which is all any property here relies on. -/
def md5Hex (content : List Char) : String := String.mk content

/-- `MetadataExtractor._calculate_checksum`: opens and hashes the file;
its own try/except catches any failure and returns `None`. -/
def calculate_checksum (readRes : Except String (List Char)) : Option String :=
  match readRes with
  | .ok content => some (md5Hex content)
  | .error _ => none

/-- Split a character list on a separator, Python-`str.split`-style: one
chunk more than the number of separators, chunks may be empty. -/
def splitOnChar (sep : Char) : List Char → List (List Char)
  | [] => [[]]
  | c :: rest =>
    match splitOnChar sep rest with
    | [] => [[c]]
    | l :: ls => if c = sep then [] :: l :: ls else (c :: l) :: ls

/-- Number of lines Python's binary-file iteration yields (chunks split
after each newline; a final fragment without a trailing newline counts as
a line): this is the `sum(1 for _ in f)` in `_extract_csv_metadata`. -/
def pyLineCount (content : List Char) : Nat :=
  content.count '\n' +
    (if content ≠ [] ∧ content.getLast? ≠ some '\n' then 1 else 0)

/-- Dtype tag: dtype inference is internal to pandas (an excluded
collaborator per the spec); modelled as a fixed tag per column. -/
def pandasDtypeTag : String := "object"

/-- The column names `pd.read_csv(file, nrows=5)` yields, modelled from
pandas' default behaviour as the source invokes it: comma separator (also
for `.tsv` files, since the source passes no `sep`), header taken from
the first non-blank line, raising (EmptyDataError) when there is none. -/
def pdReadCsvColumns (content : List Char) : Except String (List String) :=
  match (splitOnChar '\n' content).find? (fun l => !l.isEmpty) with
  | none => .error "No columns to parse from file"
  | some h => .ok ((splitOnChar ',' h).map (fun l => String.mk l))

/-- `MetadataExtractor._extract_csv_metadata`: sample the columns via
pandas, count lines over the full file and subtract the header; any
failure inside the branch degrades to a `csv_error`-scoped record. -/
def extract_csv_metadata (contentRead : Except String (List Char)) : FormatMeta :=
  match contentRead with
  | .error e => .csvError e
  | .ok content =>
    match pdReadCsvColumns content with
    | .error e => .csvError e
    | .ok cols =>
      .csv ((pyLineCount content : Int) - 1) cols.length cols
        (cols.map (fun c => (c, pandasDtypeTag)))

/-- `MetadataExtractor._extract_excel_metadata`: enumerate sheets via
pandas; failures degrade to `excel_error`. -/
def extract_excel_metadata (res : Except String (List (String × SheetInfo))) :
    FormatMeta :=
  match res with
  | .error e => .excelError e
  | .ok sheets => .excel sheets.length (sheets.map (fun s => s.1)) sheets

/-- `MetadataExtractor._extract_json_metadata`: inspect the parsed JSON
root; failures degrade to `json_error`. -/
def extract_json_metadata (res : Except String PyJsonDoc) : FormatMeta :=
  match res with
  | .error e => .jsonError e
  | .ok (.arrDoc elems) =>
    .jsonArr elems.length
      (match elems.head? with
       | some (.objElem ks) => some ks
       | _ => none)
  | .ok (.objDoc ks) => .jsonObj ks
  | .ok (.otherDoc t) => .jsonOther t

/-- `MetadataExtractor._extract_parquet_metadata`: read the dataframe via
pandas; failures degrade to `parquet_error`. -/
def extract_parquet_metadata (res : Except String PandasDf) : FormatMeta :=
  match res with
  | .error e => .parquetError e
  | .ok df => .parquet df.nRows df.columnNames.length df.columnNames df.dataTypes

/-- `MetadataExtractor.extract_metadata`: build the base record (stat
facts, checksum, extraction time), dispatch on the lowercased extension,
and let the outer except turn a stat failure into the error-shaped
record.  The checksum helper and every format branch catch their own
failures, so only the stat step reaches the outer handler. -/
def extract_metadata (f : FileRef) (env : ExtractEnv) (now : Nat) : Metadata :=
  match env.statRes with
  | .error e => .err f.path e now
  | .ok s =>
    let ext := lowerStr f.suffix
    let fmt :=
      if ext = ".csv" ∨ ext = ".tsv" then extract_csv_metadata env.contentRead
      else if ext = ".xlsx" ∨ ext = ".xls" then extract_excel_metadata env.excelRes
      else if ext = ".json" then extract_json_metadata env.jsonRes
      else if ext = ".parquet" then extract_parquet_metadata env.parquetRes
      else .base
    .ok f.path f.name s.size ext s.ctime s.mtime
      (calculate_checksum env.checksumRead) now fmt

/-- The contribution of one watched directory to `detect_files`: skip a
missing path or a non-directory (warning only), otherwise keep the
regular files whose lowercased extension is supported. -/
def dirFiles (fs : String → DirInfo) (recursive : Bool) (d : String) :
    List FileRef :=
  let dp := fs d
  if !dp.dirExists then []
  else if !dp.isDir then []
  else
    ((if recursive then dp.recursiveEntries else dp.topLevel).filter
      (fun e => e.isFile && SUPPORTED_EXTENSIONS.contains (lowerStr e.ref.suffix))).map
      (fun e => e.ref)

/-- `FileDetector.detect_files`: the per-directory contributions
appended in configuration order. -/
def detect_files (fs : String → DirInfo) (recursive : Bool) :
    List String → List FileRef
  | [] => []
  | d :: ds => dirFiles fs recursive d ++ detect_files fs recursive ds

/-- One entry of the persisted ingestion history
(`ingestion_history.json`), with the event-specific fields each
`IngestionLogger.log_*` method records. -/
inductive HistEvent where
  | start (sessionId : String) (timestamp : Nat) (filesDetected : Nat)
  | fileProcessed (sessionId : String) (timestamp : Nat) (filePath : String)
      (success : Bool) (metadata : Metadata)
  | complete (sessionId : String) (timestamp : Nat)
      (processedCount failedCount : Nat)
deriving DecidableEq, Repr

/-- The persisted state of `IngestionLogger`: the history list and the
path-keyed metadata table (an association list; Python's `dict` keeps an
existing key's position on overwrite, which `upsert` mirrors). -/
structure LoggerState where
  history : List HistEvent
  metadataTable : List (String × Metadata)
deriving DecidableEq, Repr

/-- A logger over empty persisted files. -/
def emptyLogger : LoggerState := ⟨[], []⟩

/-- `all_metadata[file_key] = metadata` on a JSON-object table: replace
an existing binding in place, else append the new binding at the end. -/
def upsert (k : String) (v : Metadata) :
    List (String × Metadata) → List (String × Metadata)
  | [] => [(k, v)]
  | (k', v') :: t => if k' = k then (k, v) :: t else (k', v') :: upsert k v t

/-- `all_metadata.get(file_path, ...)` on the table. -/
def lookupTable (k : String) : List (String × Metadata) → Option Metadata
  | [] => none
  | (k', v) :: t => if k' = k then some v else lookupTable k t

/-- `IngestionLogger._append_to_log`: read-modify-write append of one
history entry (happy path of its internal try/except). -/
def append_to_log (e : HistEvent) (st : LoggerState) : LoggerState :=
  { st with history := st.history ++ [e] }

/-- `IngestionLogger._store_metadata`: upsert the record into the table
under its own `file_path` value. -/
def store_metadata (md : Metadata) (st : LoggerState) : LoggerState :=
  { st with metadataTable := upsert (metaFilePath md) md st.metadataTable }

/-- `IngestionLogger.log_ingestion_start`. -/
def log_ingestion_start (sid : String) (ts : Nat) (filesDetected : Nat)
    (st : LoggerState) : LoggerState :=
  append_to_log (.start sid ts filesDetected) st

/-- `IngestionLogger.log_file_processed`: always append the history
entry; store the metadata only when `success` is true. -/
def log_file_processed (sid : String) (ts : Nat) (fp : String)
    (md : Metadata) (success : Bool) (st : LoggerState) : LoggerState :=
  let st1 := append_to_log (.fileProcessed sid ts fp success md) st
  if success then store_metadata md st1 else st1

/-- `IngestionLogger.log_ingestion_complete`. -/
def log_ingestion_complete (sid : String) (ts : Nat) (p f : Nat)
    (st : LoggerState) : LoggerState :=
  append_to_log (.complete sid ts p f) st

/-- `IngestionLogger.get_file_metadata` for a given path (`None` result
modelled as `none`). -/
def get_file_metadata (fp : String) (st : LoggerState) : Option Metadata :=
  lookupTable fp st.metadataTable

/-- `IngestionLogger.get_ingestion_history`: the last `limit` entries,
or all of them when `limit` is falsy (0). -/
def get_ingestion_history (limit : Nat) (st : LoggerState) : List HistEvent :=
  if limit = 0 then st.history
  else st.history.drop (st.history.length - limit)

/-- One call into the logger, as issued by the pipeline or any other
caller, carrying the arguments of the corresponding `log_*` method. -/
inductive LogOp where
  | opStart (sid : String) (ts : Nat) (filesDetected : Nat)
  | opFile (sid : String) (ts : Nat) (fp : String) (md : Metadata)
      (success : Bool)
  | opComplete (sid : String) (ts : Nat) (p f : Nat)

/-- Apply one logger call to the persisted state. -/
def applyLogOp (st : LoggerState) : LogOp → LoggerState
  | .opStart sid ts n => log_ingestion_start sid ts n st
  | .opFile sid ts fp md s => log_file_processed sid ts fp md s st
  | .opComplete sid ts p f => log_ingestion_complete sid ts p f st

/-- Apply a sequence of logger calls in order. -/
def applyLogOps (st : LoggerState) (ops : List LogOp) : LoggerState :=
  ops.foldl applyLogOp st

/-- A `file_processed` call is consistent when its `success` flag is the
one the pipeline computes: `'error' not in metadata`. -/
def opConsistent : LogOp → Prop
  | .opFile _ _ _ md s => s = !(hasError md)
  | _ => True

/-- The per-run inputs of `run_ingestion`: the outcome of file detection
(`detect_files` can raise, which is the only point inside the run-level
try that can), the runtime environment of each file, and the run's
wall-clock reading. -/
structure RunInput where
  detectRes : Except String (List FileRef)
  envOf : FileRef → ExtractEnv
  clock : Nat

/-- One element of the summary's `results` list.  (The source's inner
per-file except, which would record a synthesized error instead of
metadata, is unreachable here because `extract_metadata` is total.) -/
structure ResultEntry where
  filePath : String
  success : Bool
  metadata : Metadata
deriving DecidableEq, Repr

/-- The summary `run_ingestion` returns; `runError` models the `error`
key (absent on a normal run, set on a run-level failure). -/
structure RunSummary where
  sessionId : String
  totalFiles : Nat
  processedCount : Nat
  failedCount : Nat
  results : List ResultEntry
  runError : Option String
deriving DecidableEq, Repr

/-- The session identifier derived from the clock
(`ingestion_<timestamp>`). -/
def mkSessionId (clock : Nat) : String := "ingestion_" ++ toString clock

/-- The outcome of the per-file loop of `run_ingestion`. -/
structure LoopResult where
  processed : Nat
  failed : Nat
  results : List ResultEntry
  finalState : LoggerState

/-- The per-file loop of `run_ingestion`: extract, derive `success` as
`'error' not in metadata`, log the outcome, bump exactly one counter, and
append the result entry in detection order. -/
def processFiles (sid : String) (envOf : FileRef → ExtractEnv) (clock : Nat) :
    List FileRef → LoggerState → LoopResult
  | [], st => ⟨0, 0, [], st⟩
  | f :: fs, st =>
    let md := extract_metadata f (envOf f) clock
    let success := !(hasError md)
    let st1 := log_file_processed sid clock f.path md success st
    let r := processFiles sid envOf clock fs st1
    ⟨(if success then 1 else 0) + r.processed,
     (if success then 0 else 1) + r.failed,
     ⟨f.path, success, md⟩ :: r.results,
     r.finalState⟩

/-- `DataIngestionPipeline.run_ingestion`: detect, log start, process
each file, log completion, return the summary; if detection raises, the
run-level except returns the zero-count summary with the error set and
nothing is appended. -/
def run_ingestion (inp : RunInput) (st : LoggerState) :
    RunSummary × LoggerState :=
  let sid := mkSessionId inp.clock
  match inp.detectRes with
  | .error e => (⟨sid, 0, 0, 0, [], some e⟩, st)
  | .ok files =>
    let st1 := log_ingestion_start sid inp.clock files.length st
    let r := processFiles sid inp.envOf inp.clock files st1
    let st2 := log_ingestion_complete sid inp.clock r.processed r.failed
      r.finalState
    (⟨sid, files.length, r.processed, r.failed, r.results, none⟩, st2)

/-- The logger state after one full run over a detected file list. -/
def runOnce (files : List FileRef) (envOf : FileRef → ExtractEnv) (t : Nat)
    (st : LoggerState) : LoggerState :=
  (run_ingestion ⟨.ok files, envOf, t⟩ st).2

/-- Number of detected files whose extraction succeeds. -/
def successCount (envOf : FileRef → ExtractEnv) (clock : Nat)
    (files : List FileRef) : Nat :=
  (files.filter (fun f => !(hasError (extract_metadata f (envOf f) clock)))).length

/-- Number of detected files whose extraction fails. -/
def failCount (envOf : FileRef → ExtractEnv) (clock : Nat)
    (files : List FileRef) : Nat :=
  (files.filter (fun f => hasError (extract_metadata f (envOf f) clock))).length

/-- The history entry the per-file loop appends for one file. -/
def fileEvent (sid : String) (envOf : FileRef → ExtractEnv) (clock : Nat)
    (f : FileRef) : HistEvent :=
  .fileProcessed sid clock f.path
    (!(hasError (extract_metadata f (envOf f) clock)))
    (extract_metadata f (envOf f) clock)

/-- The block of history entries one normally-completing run appends:
one start entry, one file entry per detected file in detection order, one
complete entry. -/
def sessionBlock (envOf : FileRef → ExtractEnv) (clock : Nat)
    (files : List FileRef) : List HistEvent :=
  HistEvent.start (mkSessionId clock) clock files.length
    :: files.map (fileEvent (mkSessionId clock) envOf clock)
    ++ [HistEvent.complete (mkSessionId clock) clock
          (successCount envOf clock files) (failCount envOf clock files)]

/-- The metadata-table updates one run performs: upsert each successful
record, left to right. -/
def runUpserts (envOf : FileRef → ExtractEnv) (clock : Nat)
    (files : List FileRef) (t : List (String × Metadata)) :
    List (String × Metadata) :=
  files.foldl
    (fun t f =>
      let md := extract_metadata f (envOf f) clock
      if hasError md then t else upsert (metaFilePath md) md t) t

/-- The record a run leaves in the table at key `k`: the one of the last
successfully extracted file whose path is `k`, if any. -/
def lastStored (envOf : FileRef → ExtractEnv) (clock : Nat) (k : String) :
    List FileRef → Option Metadata
  | [] => none
  | f :: fs =>
    match lastStored envOf clock k fs with
    | some md => some md
    | none =>
      let md := extract_metadata f (envOf f) clock
      if hasError md then none
      else if metaFilePath md = k then some md else none

/-- A run environment in which every call fails (e.g. the file vanished
before processing). -/
def envGone : ExtractEnv :=
  ⟨.error "stat: No such file or directory", .error "gone", .error "gone",
    .error "gone", .error "gone", .error "gone"⟩

/-- A plain-text file used in concrete scenarios. -/
def noteTxt : FileRef := ⟨"data/incoming/note.txt", "note.txt", ".txt"⟩

/-- A healthy environment for `noteTxt`: stat succeeds, content reads as
`abc`, no format branch applies. -/
def envNote : ExtractEnv :=
  ⟨.ok ⟨3, 10, 20⟩, .ok "abc".toList, .ok "abc".toList,
    .error "not an excel file", .error "not a json file",
    .error "not a parquet file"⟩

/-- An environment for `noteTxt` where only the checksum read fails
(e.g. permissions dropped between stat and open). -/
def envNoCk : ExtractEnv :=
  ⟨.ok ⟨3, 10, 20⟩, .error "Permission denied", .ok "abc".toList,
    .error "not an excel file", .error "not a json file",
    .error "not a parquet file"⟩

/-- The spec's example table: `a.csv` with header `id,name` and three
data rows, trailing newline. -/
def csvSample : List Char := "id,name\n1,x\n2,y\n3,z\n".toList

/-- A csv content with one data row and no trailing newline: one line
separator, two lines. -/
def csvNoTrail : List Char := "id,name\n1,a".toList

/-- The csv file of the spec's example scenario. -/
def aCsv : FileRef := ⟨"data/incoming/a.csv", "a.csv", ".csv"⟩

/-- A healthy environment for `aCsv` over `csvSample`. -/
def envACsv : ExtractEnv :=
  ⟨.ok ⟨20, 10, 20⟩, .ok csvSample, .ok csvSample,
    .error "not an excel file", .error "not a json file",
    .error "not a parquet file"⟩

/-- An empty csv file: stat and checksum succeed, but `pd.read_csv`
raises EmptyDataError, exercising the branch-scoped `csv_error`. -/
def emptyCsv : FileRef := ⟨"data/incoming/empty.csv", "empty.csv", ".csv"⟩

/-- Environment for `emptyCsv`: every read succeeds with empty content. -/
def envEmptyCsv : ExtractEnv :=
  ⟨.ok ⟨0, 10, 20⟩, .ok [], .ok [],
    .error "not an excel file", .error "not a json file",
    .error "not a parquet file"⟩

/-- A directory containing exactly `aCsv`. -/
def dirWithACsv : DirInfo := ⟨true, true, [⟨aCsv, true⟩], [⟨aCsv, true⟩]⟩

/-- A missing directory. -/
def dirMissing : DirInfo := ⟨false, false, [], []⟩

/-- A filesystem with one real directory `d`, listed twice in the
duplicate-detection scenario. -/
def fsDup : String → DirInfo :=
  fun d => if d = "d" then dirWithACsv else dirMissing

/-- A filesystem with two disjoint directories `p` (holding `aCsv`) and
`q` (holding `noteTxt`). -/
def fsTwo : String → DirInfo :=
  fun d =>
    if d = "p" then dirWithACsv
    else if d = "q" then ⟨true, true, [⟨noteTxt, true⟩], [⟨noteTxt, true⟩]⟩
    else dirMissing

/-- An environment table for concrete runs: `aCsv` and `emptyCsv` and
`noteTxt` get their environments, anything else is gone. -/
def envTable : FileRef → ExtractEnv :=
  fun f =>
    if f = aCsv then envACsv
    else if f = emptyCsv then envEmptyCsv
    else if f = noteTxt then envNote
    else envGone

/-- A successfully extracted record for `noteTxt`. -/
def mdGood : Metadata := extract_metadata noteTxt envNote 5

/-- An error-shaped record for a vanished file. -/
def mdBad : Metadata := extract_metadata aCsv envGone 5

/-- A concrete sequence of logger calls as the pipeline would issue them:
one success, one failure. -/
def opsSample : List LogOp :=
  [.opStart "s" 5 2,
   .opFile "s" 5 noteTxt.path mdGood (!(hasError mdGood)),
   .opFile "s" 5 aCsv.path mdBad (!(hasError mdBad)),
   .opComplete "s" 5 1 1]

/-- A run input whose detection finds nothing. -/
def inpNil : RunInput := ⟨.ok [], fun _ => envGone, 3⟩

/-- A run input whose detection raises. -/
def inpBoom : RunInput := ⟨.error "disk failure during scan", fun _ => envGone, 4⟩

lemma log_file_processed_history (sid : String) (ts : Nat) (fp : String)
    (md : Metadata) (s : Bool) (st : LoggerState) :
    (log_file_processed sid ts fp md s st).history
      = st.history ++ [.fileProcessed sid ts fp s md] := by
  cases s <;> simp [log_file_processed, append_to_log, store_metadata]

lemma log_file_processed_table (sid : String) (ts : Nat) (fp : String)
    (md : Metadata) (s : Bool) (st : LoggerState) :
    (log_file_processed sid ts fp md s st).metadataTable
      = if s then upsert (metaFilePath md) md st.metadataTable
        else st.metadataTable := by
  cases s <;> simp [log_file_processed, append_to_log, store_metadata]

lemma processFiles_processed (sid : String) (envOf : FileRef → ExtractEnv)
    (clock : Nat) (fs : List FileRef) : ∀ st : LoggerState,
    (processFiles sid envOf clock fs st).processed
      = successCount envOf clock fs := by
  induction fs with
  | nil => intro st; rfl
  | cons f fs ih =>
    intro st
    cases h : hasError (extract_metadata f (envOf f) clock) <;>
      simp [processFiles, successCount, List.filter_cons, h, ih,
        successCount, Nat.add_comm]

lemma processFiles_failed (sid : String) (envOf : FileRef → ExtractEnv)
    (clock : Nat) (fs : List FileRef) : ∀ st : LoggerState,
    (processFiles sid envOf clock fs st).failed = failCount envOf clock fs := by
  induction fs with
  | nil => intro st; rfl
  | cons f fs ih =>
    intro st
    cases h : hasError (extract_metadata f (envOf f) clock) <;>
      simp [processFiles, failCount, List.filter_cons, h, ih, Nat.add_comm]

lemma processFiles_results (sid : String) (envOf : FileRef → ExtractEnv)
    (clock : Nat) (fs : List FileRef) : ∀ st : LoggerState,
    (processFiles sid envOf clock fs st).results
      = fs.map (fun f =>
          ⟨f.path, !(hasError (extract_metadata f (envOf f) clock)),
            extract_metadata f (envOf f) clock⟩) := by
  induction fs with
  | nil => intro st; rfl
  | cons f fs ih => intro st; simp [processFiles, ih]

lemma processFiles_history (sid : String) (envOf : FileRef → ExtractEnv)
    (clock : Nat) (fs : List FileRef) : ∀ st : LoggerState,
    (processFiles sid envOf clock fs st).finalState.history
      = st.history ++ fs.map (fileEvent sid envOf clock) := by
  induction fs with
  | nil => intro st; simp [processFiles]
  | cons f fs ih =>
    intro st
    simp [processFiles, ih, log_file_processed_history, fileEvent]

lemma processFiles_table (sid : String) (envOf : FileRef → ExtractEnv)
    (clock : Nat) (fs : List FileRef) : ∀ st : LoggerState,
    (processFiles sid envOf clock fs st).finalState.metadataTable
      = runUpserts envOf clock fs st.metadataTable := by
  induction fs with
  | nil => intro st; rfl
  | cons f fs ih =>
    intro st
    cases h : hasError (extract_metadata f (envOf f) clock) <;>
      simp [processFiles, runUpserts, List.foldl_cons, h, ih,
        log_file_processed_table]

lemma successCount_add_failCount (envOf : FileRef → ExtractEnv) (clock : Nat)
    (fs : List FileRef) :
    successCount envOf clock fs + failCount envOf clock fs = fs.length := by
  induction fs with
  | nil => rfl
  | cons f fs ih =>
    cases h : hasError (extract_metadata f (envOf f) clock) <;>
      simp [successCount, failCount, List.filter_cons, h] <;>
      simp [successCount, failCount] at ih <;> omega

lemma run_ingestion_ok_summary (files : List FileRef)
    (envOf : FileRef → ExtractEnv) (clock : Nat) (st : LoggerState) :
    (run_ingestion ⟨.ok files, envOf, clock⟩ st).1
      = ⟨mkSessionId clock, files.length, successCount envOf clock files,
          failCount envOf clock files,
          files.map (fun f =>
            ⟨f.path, !(hasError (extract_metadata f (envOf f) clock)),
              extract_metadata f (envOf f) clock⟩), none⟩ := by
  simp [run_ingestion, processFiles_processed, processFiles_failed,
    processFiles_results]

lemma run_ingestion_ok_history (files : List FileRef)
    (envOf : FileRef → ExtractEnv) (clock : Nat) (st : LoggerState) :
    (run_ingestion ⟨.ok files, envOf, clock⟩ st).2.history
      = st.history ++ sessionBlock envOf clock files := by
  simp [run_ingestion, log_ingestion_complete, append_to_log,
    processFiles_history, log_ingestion_start, sessionBlock,
    processFiles_processed, processFiles_failed]

lemma run_ingestion_ok_table (files : List FileRef)
    (envOf : FileRef → ExtractEnv) (clock : Nat) (st : LoggerState) :
    (run_ingestion ⟨.ok files, envOf, clock⟩ st).2.metadataTable
      = runUpserts envOf clock files st.metadataTable := by
  simp [run_ingestion, log_ingestion_complete, append_to_log,
    log_ingestion_start, processFiles_table]

lemma sessionBlock_length (envOf : FileRef → ExtractEnv) (clock : Nat)
    (files : List FileRef) :
    (sessionBlock envOf clock files).length = 1 + files.length + 1 := by
  simp [sessionBlock]
  omega

lemma lookup_upsert (k k' : String) (v : Metadata) :
    ∀ t : List (String × Metadata),
    lookupTable k' (upsert k v t)
      = if k = k' then some v else lookupTable k' t := by
  intro t
  induction t with
  | nil =>
    by_cases h : k = k' <;> simp [upsert, lookupTable, h]
  | cons kv t ih =>
    obtain ⟨k0, v0⟩ := kv
    by_cases h0 : k0 = k
    · subst h0
      by_cases h : k0 = k' <;> simp [upsert, lookupTable, h]
    · by_cases h : k0 = k' <;> by_cases h' : k = k'
      · exact absurd (h.trans h'.symm) h0
      · subst h
        simp [upsert, lookupTable, h0, h']
      · subst h'
        simp [upsert, lookupTable, h0, h, ih]
      · simp [upsert, lookupTable, h0, h, h', ih]

lemma mem_upsert (kv : String × Metadata) (k : String) (v : Metadata) :
    ∀ t : List (String × Metadata),
    kv ∈ upsert k v t → kv = (k, v) ∨ kv ∈ t := by
  intro t
  induction t with
  | nil => simp [upsert]
  | cons kv0 t ih =>
    obtain ⟨k0, v0⟩ := kv0
    by_cases h : k0 = k
    · subst h
      simp only [upsert, if_pos rfl]
      intro hm
      rcases List.mem_cons.mp hm with h1 | h1
      · exact Or.inl h1
      · exact Or.inr (List.mem_cons_of_mem _ h1)
    · simp only [upsert, if_neg h]
      intro hm
      rcases List.mem_cons.mp hm with h1 | h1
      · exact Or.inr (by rw [h1]; exact List.mem_cons_self _ _)
      · rcases ih h1 with h2 | h2
        · exact Or.inl h2
        · exact Or.inr (List.mem_cons_of_mem _ h2)

lemma lookup_mem (k : String) (v : Metadata) :
    ∀ t : List (String × Metadata), lookupTable k t = some v → (k, v) ∈ t := by
  intro t
  induction t with
  | nil => simp [lookupTable]
  | cons kv0 t ih =>
    obtain ⟨k0, v0⟩ := kv0
    by_cases h : k0 = k <;> intro hl <;> simp [lookupTable, h] at hl
    · subst h; simp [hl]
    · exact List.mem_cons_of_mem _ (ih hl)

lemma metaFilePath_extract (f : FileRef) (env : ExtractEnv) (c : Nat) :
    metaFilePath (extract_metadata f env c) = f.path := by
  cases h : env.statRes <;> simp [extract_metadata, h, metaFilePath]

lemma hasError_extract_clock (f : FileRef) (env : ExtractEnv) (a b : Nat) :
    hasError (extract_metadata f env a) = hasError (extract_metadata f env b) := by
  cases h : env.statRes <;> simp [extract_metadata, h, hasError]

lemma strip_extract_clock (f : FileRef) (env : ExtractEnv) (a b : Nat) :
    stripExtractionTime (extract_metadata f env a)
      = stripExtractionTime (extract_metadata f env b) := by
  cases h : env.statRes <;> simp [extract_metadata, h, stripExtractionTime]

lemma metaChecksum_strip (m : Metadata) :
    metaChecksum (stripExtractionTime m) = metaChecksum m := by
  cases m <;> rfl

lemma lookup_runUpserts (envOf : FileRef → ExtractEnv) (clock : Nat)
    (k : String) : ∀ (fs : List FileRef) (t : List (String × Metadata)),
    lookupTable k (runUpserts envOf clock fs t)
      = match lastStored envOf clock k fs with
        | some md => some md
        | none => lookupTable k t := by
  intro fs
  induction fs with
  | nil => intro t; rfl
  | cons f fs ih =>
    intro t
    cases hl : lastStored envOf clock k fs with
    | some md =>
      cases h : hasError (extract_metadata f (envOf f) clock) <;>
        simp [runUpserts, List.foldl_cons, lastStored, h, hl] at ih ⊢ <;>
        simp [ih, hl]
    | none =>
      cases h : hasError (extract_metadata f (envOf f) clock)
      · by_cases hp : metaFilePath (extract_metadata f (envOf f) clock) = k <;>
          simp [runUpserts, List.foldl_cons, lastStored, h, hl, hp] at ih ⊢ <;>
          simp [ih, hl, lookup_upsert, hp]
      · simp [runUpserts, List.foldl_cons, lastStored, h, hl] at ih ⊢
        simp [ih, hl]

lemma lastStored_strip_clock (envOf : FileRef → ExtractEnv) (a b : Nat)
    (k : String) : ∀ fs : List FileRef,
    (lastStored envOf a k fs).map stripExtractionTime
      = (lastStored envOf b k fs).map stripExtractionTime := by
  intro fs
  induction fs with
  | nil => rfl
  | cons f fs ih =>
    simp only [lastStored]
    cases ha : lastStored envOf a k fs with
    | some mda =>
      cases hb : lastStored envOf b k fs with
      | some mdb => simpa [ha, hb] using ih
      | none => simp [ha, hb] at ih
    | none =>
      cases hb : lastStored envOf b k fs with
      | some mdb => simp [ha, hb] at ih
      | none =>
        have he := hasError_extract_clock f (envOf f) a b
        have hp : metaFilePath (extract_metadata f (envOf f) a)
            = metaFilePath (extract_metadata f (envOf f) b) := by
          simp [metaFilePath_extract]
        cases h : hasError (extract_metadata f (envOf f) b)
        · rw [he, h]
          by_cases hpk : metaFilePath (extract_metadata f (envOf f) b) = k
          · simp [h, hp, hpk, strip_extract_clock f (envOf f) a b]
          · simp [h, hp, hpk]
        · simp [he, h]

lemma mem_detect_files (fs : String → DirInfo) (r : Bool) (x : FileRef) :
    ∀ ws : List String,
    x ∈ detect_files fs r ws ↔ ∃ d ∈ ws, x ∈ dirFiles fs r d := by
  intro ws
  induction ws with
  | nil => simp [detect_files]
  | cons d ds ih => simp [detect_files, List.mem_append, ih]

lemma applyLogOp_table_no_error (st : LoggerState) (op : LogOp)
    (hst : ∀ kv ∈ st.metadataTable, hasError kv.2 = false)
    (hop : opConsistent op) :
    ∀ kv ∈ (applyLogOp st op).metadataTable, hasError kv.2 = false := by
  cases op with
  | opStart sid ts n =>
    simpa [applyLogOp, log_ingestion_start, append_to_log] using hst
  | opComplete sid ts p f =>
    simpa [applyLogOp, log_ingestion_complete, append_to_log] using hst
  | opFile sid ts fp md s =>
    have hcons : s = !(hasError md) := hop
    intro kv hkv
    have ht : (applyLogOp st (LogOp.opFile sid ts fp md s)).metadataTable
        = if s then upsert (metaFilePath md) md st.metadataTable
          else st.metadataTable := log_file_processed_table sid ts fp md s st
    rw [ht] at hkv
    cases hs : s with
    | false =>
      rw [hs] at hkv
      simp at hkv
      exact hst kv hkv
    | true =>
      rw [hs] at hkv
      simp at hkv
      have hne : hasError md = false := by
        cases h : hasError md
        · rfl
        · rw [h] at hcons
          rw [hcons] at hs
          exact absurd hs (by decide)
      rcases mem_upsert kv (metaFilePath md) md st.metadataTable hkv with h1 | h1
      · rw [h1]
        simpa using hne
      · exact hst kv h1

lemma applyLogOps_table_no_error :
    ∀ (ops : List LogOp) (st : LoggerState),
    (∀ kv ∈ st.metadataTable, hasError kv.2 = false) →
    (∀ op ∈ ops, opConsistent op) →
    ∀ kv ∈ (applyLogOps st ops).metadataTable, hasError kv.2 = false := by
  intro ops
  induction ops with
  | nil => intro st h _; simpa [applyLogOps] using h
  | cons op ops ih =>
    intro st h hops
    have h1 := applyLogOp_table_no_error st op h
      (hops op (List.mem_cons_self _ _))
    have h2 : ∀ o ∈ ops, opConsistent o :=
      fun o ho => hops o (List.mem_cons_of_mem _ ho)
    simpa [applyLogOps, List.foldl_cons] using
      ih (applyLogOp st op) h1 h2

lemma applyLogOp_table_keyed (st : LoggerState) (op : LogOp)
    (hst : ∀ kv ∈ st.metadataTable, metaFilePath kv.2 = kv.1) :
    ∀ kv ∈ (applyLogOp st op).metadataTable, metaFilePath kv.2 = kv.1 := by
  cases op with
  | opStart sid ts n =>
    simpa [applyLogOp, log_ingestion_start, append_to_log] using hst
  | opComplete sid ts p f =>
    simpa [applyLogOp, log_ingestion_complete, append_to_log] using hst
  | opFile sid ts fp md s =>
    intro kv hkv
    have ht : (applyLogOp st (LogOp.opFile sid ts fp md s)).metadataTable
        = if s then upsert (metaFilePath md) md st.metadataTable
          else st.metadataTable := log_file_processed_table sid ts fp md s st
    rw [ht] at hkv
    cases hs : s with
    | false =>
      rw [hs] at hkv
      simp at hkv
      exact hst kv hkv
    | true =>
      rw [hs] at hkv
      simp at hkv
      rcases mem_upsert kv (metaFilePath md) md st.metadataTable hkv with h1 | h1
      · rw [h1]
      · exact hst kv h1

lemma applyLogOps_table_keyed :
    ∀ (ops : List LogOp) (st : LoggerState),
    (∀ kv ∈ st.metadataTable, metaFilePath kv.2 = kv.1) →
    ∀ kv ∈ (applyLogOps st ops).metadataTable, metaFilePath kv.2 = kv.1 := by
  intro ops
  induction ops with
  | nil => intro st h; simpa [applyLogOps] using h
  | cons op ops ih =>
    intro st h
    simpa [applyLogOps, List.foldl_cons] using
      ih (applyLogOp st op) (applyLogOp_table_keyed st op h)

lemma pyLineCount_trailing (c : List Char) (h : c.getLast? = some '\n') :
    pyLineCount c = c.count '\n' := by
  simp [pyLineCount, h]

lemma extract_csv_ok (c : List Char) (rc : Int) (cc : Nat)
    (cn : List String) (dt : List (String × String)) :
    extract_csv_metadata (.ok c) = .csv rc cc cn dt →
    rc = (pyLineCount c : Int) - 1 ∧ cc = cn.length
      ∧ dt = cn.map (fun x => (x, pandasDtypeTag)) := by
  simp only [extract_csv_metadata]
  cases h : pdReadCsvColumns c with
  | error e => intro hcsv; exact absurd hcsv (by simp)
  | ok cols =>
    intro hcsv
    rw [FormatMeta.csv.injEq] at hcsv
    obtain ⟨h1, h2, h3, h4⟩ := hcsv
    refine ⟨h1.symm, ?_, ?_⟩
    · rw [← h2, ← h3]
    · rw [← h3, ← h4]

lemma option_map_strip_checksum (o1 o2 : Option Metadata)
    (h : o1.map stripExtractionTime = o2.map stripExtractionTime) :
    o1.map metaChecksum = o2.map metaChecksum := by
  cases o1 with
  | none => cases o2 with
    | none => rfl
    | some b => simp at h
  | some a => cases o2 with
    | none => simp at h
    | some b =>
      simp at h ⊢
      calc metaChecksum a
          = metaChecksum (stripExtractionTime a) := (metaChecksum_strip a).symm
        _ = metaChecksum (stripExtractionTime b) := by rw [h]
        _ = metaChecksum b := metaChecksum_strip b

/-- C1: for a run that completes normally (file detection returns a file
list), the summary satisfies `processed_count + failed_count =
total_files` with `total_files` the number of detected files and no
`error` field; when a run-level error occurs (detection raises), all
three counts are 0 and the `error` field carries the message. -/
theorem run_summary_accounting (inp : RunInput) (st : LoggerState) :
    (∀ files, inp.detectRes = .ok files →
      (run_ingestion inp st).1.processedCount
          + (run_ingestion inp st).1.failedCount
        = (run_ingestion inp st).1.totalFiles
      ∧ (run_ingestion inp st).1.totalFiles = files.length
      ∧ (run_ingestion inp st).1.runError = none)
    ∧ (∀ e, inp.detectRes = .error e →
      (run_ingestion inp st).1.totalFiles = 0
      ∧ (run_ingestion inp st).1.processedCount = 0
      ∧ (run_ingestion inp st).1.failedCount = 0
      ∧ (run_ingestion inp st).1.runError = some e) := by
  obtain ⟨dr, envOf, clock⟩ := inp
  constructor
  · intro files hf
    cases dr with
    | error e => simp at hf
    | ok fs =>
      simp only [Except.ok.injEq] at hf
      subst hf
      rw [run_ingestion_ok_summary]
      exact ⟨successCount_add_failCount envOf clock fs, rfl, rfl⟩
  · intro e he
    cases dr with
    | ok fs => simp at he
    | error e' =>
      simp only [Except.error.injEq] at he
      subst he
      exact ⟨rfl, rfl, rfl, rfl⟩

/-- Witness for C1: a concrete normal run over no files and a concrete
failing detection. -/
theorem run_summary_accounting_witness :
    ((run_ingestion inpNil emptyLogger).1.processedCount
        + (run_ingestion inpNil emptyLogger).1.failedCount
      = (run_ingestion inpNil emptyLogger).1.totalFiles
     ∧ (run_ingestion inpNil emptyLogger).1.totalFiles
        = ([] : List FileRef).length
     ∧ (run_ingestion inpNil emptyLogger).1.runError = none)
    ∧ ((run_ingestion inpBoom emptyLogger).1.totalFiles = 0
     ∧ (run_ingestion inpBoom emptyLogger).1.processedCount = 0
     ∧ (run_ingestion inpBoom emptyLogger).1.failedCount = 0
     ∧ (run_ingestion inpBoom emptyLogger).1.runError
        = some "disk failure during scan") :=
  ⟨(run_summary_accounting inpNil emptyLogger).1 [] rfl,
   (run_summary_accounting inpBoom emptyLogger).2 "disk failure during scan" rfl⟩

/-- C2: `log_file_processed` writes to the metadata table exactly when
it is called with `success = true`; consequently, under any sequence of
logger calls whose `success` flags are the ones the pipeline computes
(`'error' not in metadata`), every record ever present in the table is
success-shaped — an error-shaped record is logged in the history but
never enters the table. -/
theorem metadata_table_requires_success :
    (∀ (sid : String) (ts : Nat) (fp : String) (md : Metadata) (s : Bool)
        (st : LoggerState),
      (log_file_processed sid ts fp md s st).metadataTable
        = if s then upsert (metaFilePath md) md st.metadataTable
          else st.metadataTable)
    ∧ (∀ ops : List LogOp, (∀ op ∈ ops, opConsistent op) →
        ∀ kv ∈ (applyLogOps emptyLogger ops).metadataTable,
          hasError kv.2 = false) :=
  ⟨log_file_processed_table,
   fun ops hops =>
     applyLogOps_table_no_error ops emptyLogger (by simp [emptyLogger]) hops⟩

/-- Witness for C2: after a concrete pipeline-shaped call sequence with
one success and one failure, the record found in the table is the
success-shaped one. -/
theorem metadata_table_requires_success_witness : hasError mdGood = false :=
  metadata_table_requires_success.2 opsSample
    (by
      intro op hop
      simp only [opsSample, List.mem_cons, List.not_mem_nil, or_false] at hop
      rcases hop with h | h | h | h <;> subst h <;> simp [opConsistent])
    ("data/incoming/note.txt", mdGood) (by decide)

lemma successCount_filter_map (envOf : FileRef → ExtractEnv) (clock : Nat) :
    ∀ fs : List FileRef,
    successCount envOf clock fs
      = ((fs.map (fun f =>
            (⟨f.path, !(hasError (extract_metadata f (envOf f) clock)),
              extract_metadata f (envOf f) clock⟩ : ResultEntry))).filter
          (fun r => r.success)).length := by
  intro fs
  induction fs with
  | nil => rfl
  | cons f fs ih =>
    cases hE : hasError (extract_metadata f (envOf f) clock) <;>
      simp [successCount, List.filter_cons, hE] at ih ⊢ <;> exact ih

/-- C3: the per-file loop counts a file as processed exactly when its
metadata record has no top-level `error` key: every result entry's
`success` flag is `'error' not in metadata`, the processed count is the
number of successful entries, and a record whose format branch failed
(carrying only a branch-scoped `csv_error`) has no top-level `error` and
therefore counts as processed. -/
theorem processed_iff_no_top_level_error (inp : RunInput) (st : LoggerState)
    (files : List FileRef) (h : inp.detectRes = .ok files) :
    (∀ r ∈ (run_ingestion inp st).1.results,
        r.success = !(hasError r.metadata))
    ∧ (run_ingestion inp st).1.processedCount
        = ((run_ingestion inp st).1.results.filter
            (fun r => r.success)).length
    ∧ ∀ (fp fn : String) (sz : Nat) (ex : String) (ct mt : Nat)
        (ck : Option String) (et : Nat) (m : String),
        hasError (Metadata.ok fp fn sz ex ct mt ck et (.csvError m)) = false := by
  obtain ⟨dr, envOf, clock⟩ := inp
  cases dr with
  | error e => simp at h
  | ok fs =>
    simp only [Except.ok.injEq] at h
    subst h
    rw [run_ingestion_ok_summary]
    refine ⟨?_, ?_, ?_⟩
    · intro r hr
      simp only [List.mem_map] at hr
      obtain ⟨f, hf, hr⟩ := hr
      rw [← hr]
    · exact successCount_filter_map envOf clock fs
    · intro fp fn sz ex ct mt ck et m
      rfl

/-- Witness for C3: on a concrete run over a healthy csv and an empty
csv (whose `pd.read_csv` raises, leaving only a `csv_error` key), the
processed count equals the number of success-flagged results (here both
files, the `csv_error` one included). -/
theorem processed_iff_no_top_level_error_witness :
    (run_ingestion ⟨.ok [aCsv, emptyCsv], envTable, 9⟩ emptyLogger).1.processedCount
      = ((run_ingestion ⟨.ok [aCsv, emptyCsv], envTable, 9⟩
            emptyLogger).1.results.filter (fun r => r.success)).length :=
  (processed_iff_no_top_level_error ⟨.ok [aCsv, emptyCsv], envTable, 9⟩
    emptyLogger [aCsv, emptyCsv] rfl).2.1

/-- C4 counterexample: the claim says a raising checksum step yields the
error-shaped `{file_path, error, extraction_time}` record, but on a file
whose checksum read raises (`envNoCk`) the source returns the normal
record with a null checksum and no top-level `error` key. -/
theorem checksum_failure_not_error_shaped :
    envNoCk.checksumRead = Except.error "Permission denied"
    ∧ extract_metadata noteTxt envNoCk 7
        = Metadata.ok "data/incoming/note.txt" "note.txt" 3 ".txt" 10 20
            none 7 .base
    ∧ hasError (extract_metadata noteTxt envNoCk 7) = false :=
  ⟨rfl, by decide, by decide⟩

/-- C4 (amended): `extract_metadata` never propagates a failure; a
raising stat step yields exactly the error-shaped
`{file_path, error, extraction_time}` record, while a raising checksum
step is caught inside the checksum helper and yields a normal
(no-top-level-error) record with a null checksum, and format-branch
failures likewise stay scoped to their branch. -/
theorem extract_metadata_total_shape (f : FileRef) (env : ExtractEnv)
    (now : Nat) :
    (∀ e, env.statRes = .error e →
      extract_metadata f env now = .err f.path e now)
    ∧ (∀ s, env.statRes = .ok s →
        hasError (extract_metadata f env now) = false)
    ∧ (∀ s e, env.statRes = .ok s → env.checksumRead = .error e →
        metaChecksum (extract_metadata f env now) = none) := by
  refine ⟨?_, ?_, ?_⟩
  · intro e he
    simp [extract_metadata, he]
  · intro s hs
    simp [extract_metadata, hs, hasError]
  · intro s e hs he
    simp [extract_metadata, hs, metaChecksum, calculate_checksum, he]

/-- Witness for C4: a concrete checksum failure yields a null checksum,
and a concrete stat failure yields the error-shaped record. -/
theorem extract_metadata_total_shape_witness :
    metaChecksum (extract_metadata noteTxt envNoCk 7) = none
    ∧ extract_metadata noteTxt envGone 7
        = Metadata.err noteTxt.path "stat: No such file or directory" 7 :=
  ⟨(extract_metadata_total_shape noteTxt envNoCk 7).2.2 ⟨3, 10, 20⟩
      "Permission denied" rfl rfl,
   (extract_metadata_total_shape noteTxt envGone 7).1
      "stat: No such file or directory" rfl⟩

/-- C5 counterexample: with the same directory configured twice, the
same resolved file appears twice in the detection result and is
double-counted in the run's total, contradicting the no-duplicates
claim. -/
theorem detect_files_duplicate_counterex :
    detect_files fsDup true ["d", "d"] = [aCsv, aCsv]
    ∧ ¬ ((detect_files fsDup true ["d", "d"]).map FileRef.path).Nodup
    ∧ (run_ingestion ⟨.ok (detect_files fsDup true ["d", "d"]), envTable, 2⟩
          emptyLogger).1.totalFiles = 2 :=
  ⟨by decide, by decide, by decide⟩

/-- C5 (amended): the detection result is the concatenation of the
per-directory listings, so a path reachable under two configured
directory entries is counted once per entry; duplicates are absent
whenever each directory's own listing is duplicate-free and the
configured directories' listings are pairwise disjoint. -/
theorem detect_files_nodup_of_disjoint (fs : String → DirInfo) (r : Bool)
    (watch : List String)
    (h1 : ∀ d ∈ watch, ((dirFiles fs r d).map FileRef.path).Nodup)
    (h2 : watch.Pairwise (fun d1 d2 =>
        ∀ p ∈ (dirFiles fs r d1).map FileRef.path,
          p ∉ (dirFiles fs r d2).map FileRef.path)) :
    ((detect_files fs r watch).map FileRef.path).Nodup := by
  induction watch with
  | nil => simp [detect_files]
  | cons d ds ih =>
    rw [List.pairwise_cons] at h2
    obtain ⟨hd, hds⟩ := h2
    have hnd : ((dirFiles fs r d).map FileRef.path).Nodup :=
      h1 d (List.mem_cons_self _ _)
    have hrest : ((detect_files fs r ds).map FileRef.path).Nodup :=
      ih (fun d' hd' => h1 d' (List.mem_cons_of_mem _ hd')) hds
    have hsplit : detect_files fs r (d :: ds)
        = dirFiles fs r d ++ detect_files fs r ds := rfl
    rw [hsplit, List.map_append, List.nodup_append]
    refine ⟨hnd, hrest, ?_⟩
    intro p hp hq
    rw [List.mem_map] at hq
    obtain ⟨x, hx, hxp⟩ := hq
    rw [mem_detect_files] at hx
    obtain ⟨d', hd', hx'⟩ := hx
    exact hd d' hd' p hp (by
      rw [← hxp]
      exact List.mem_map_of_mem FileRef.path hx')

/-- Witness for C5: two disjoint configured directories yield a
duplicate-free detection result. -/
theorem detect_files_nodup_of_disjoint_witness :
    ((detect_files fsTwo true ["p", "q"]).map FileRef.path).Nodup :=
  detect_files_nodup_of_disjoint fsTwo true ["p", "q"] (by decide) (by decide)

/-- C6 counterexample: re-running ingestion on an unchanged file with an
advanced clock rewrites the stored record's `extraction_time`, so the
metadata table after the second run is not equal to the table after the
first — "same keys mapped to the same values" fails as stated. -/
theorem rerun_changes_stored_record :
    (runOnce [noteTxt] (fun _ => envNote) 1
        (runOnce [noteTxt] (fun _ => envNote) 0 emptyLogger)).metadataTable
      ≠ (runOnce [noteTxt] (fun _ => envNote) 0 emptyLogger).metadataTable := by
  decide

/-- C6 (amended): re-running ingestion on an unchanged file set with
unchanged per-file environments leaves the metadata table with the same
keys and the same values up to the refreshed `extraction_time` field
(checksums in particular unchanged), while the history is strictly
append-only, growing by exactly `1 + filesDetected + 1` entries per
run. -/
theorem rerun_idempotent_up_to_time (files : List FileRef)
    (envOf : FileRef → ExtractEnv) (t1 t2 : Nat) (st0 : LoggerState) :
    (∀ k, (lookupTable k (runOnce files envOf t2
            (runOnce files envOf t1 st0)).metadataTable).map stripExtractionTime
        = (lookupTable k (runOnce files envOf t1 st0).metadataTable).map
            stripExtractionTime)
    ∧ (∀ k, (lookupTable k (runOnce files envOf t2
            (runOnce files envOf t1 st0)).metadataTable).map metaChecksum
        = (lookupTable k (runOnce files envOf t1 st0).metadataTable).map
            metaChecksum)
    ∧ (∃ tail, (runOnce files envOf t2
            (runOnce files envOf t1 st0)).history
          = (runOnce files envOf t1 st0).history ++ tail
        ∧ tail.length = 1 + files.length + 1)
    ∧ (runOnce files envOf t1 st0).history.length
        = st0.history.length + (1 + files.length + 1) := by
  have hA : ∀ k,
      (lookupTable k (runOnce files envOf t2
          (runOnce files envOf t1 st0)).metadataTable).map stripExtractionTime
        = (lookupTable k (runOnce files envOf t1 st0).metadataTable).map
            stripExtractionTime := by
    intro k
    rw [show (runOnce files envOf t2 (runOnce files envOf t1 st0)).metadataTable
        = runUpserts envOf t2 files
            (runOnce files envOf t1 st0).metadataTable from
      run_ingestion_ok_table files envOf t2 (runOnce files envOf t1 st0)]
    rw [lookup_runUpserts]
    have hs := lastStored_strip_clock envOf t2 t1 k files
    cases h2 : lastStored envOf t2 k files with
    | none => rfl
    | some md2 =>
      cases h1 : lastStored envOf t1 k files with
      | none =>
        rw [h2, h1] at hs
        simp at hs
      | some md1 =>
        rw [h2, h1] at hs
        simp at hs
        rw [show (runOnce files envOf t1 st0).metadataTable
            = runUpserts envOf t1 files st0.metadataTable from
          run_ingestion_ok_table files envOf t1 st0]
        rw [lookup_runUpserts, h1]
        simpa using hs
  refine ⟨hA, ?_, ?_, ?_⟩
  · intro k
    exact option_map_strip_checksum _ _ (hA k)
  · refine ⟨sessionBlock envOf t2 files, ?_, sessionBlock_length envOf t2 files⟩
    exact run_ingestion_ok_history files envOf t2 (runOnce files envOf t1 st0)
  · rw [show (runOnce files envOf t1 st0).history
        = st0.history ++ sessionBlock envOf t1 files from
      run_ingestion_ok_history files envOf t1 st0]
    rw [List.length_append, sessionBlock_length]

/-- C7 counterexample: on a csv whose content does not end with a line
separator (`id,name\n1,a`), the extracted `row_count` is 1 (the true
number of data rows) while "number of line separators minus one" is 0,
so the claimed equality fails. -/
theorem csv_row_count_not_separator_count :
    extract_csv_metadata (.ok csvNoTrail)
      = .csv 1 2 ["id", "name"] [("id", "object"), ("name", "object")]
    ∧ ((csvNoTrail.count '\n' : Int) - 1) = 0
    ∧ (1 : Int) ≠ 0 :=
  ⟨by decide, by decide, by decide⟩

/-- C7 (amended): the extracted `row_count` equals the number of lines of
the full file under newline-chunk iteration (a final unterminated
fragment counts as a line) minus one for the header; this equals
"separators minus one" exactly when the content ends with a newline, and
on the spec's example csv (three data rows, header `id,name`, trailing
newline) it yields `rowCount = 3`, `columnCount = 2`,
`columnNames = ["id", "name"]`. -/
theorem csv_row_count_line_based :
    (∀ (c : List Char) (rc : Int) (cc : Nat) (cn : List String)
        (dt : List (String × String)),
      extract_csv_metadata (.ok c) = .csv rc cc cn dt →
      rc = (pyLineCount c : Int) - 1
      ∧ (c.getLast? = some '\n' → rc = (c.count '\n' : Int) - 1)
      ∧ cc = cn.length)
    ∧ extract_csv_metadata (.ok csvSample)
        = .csv 3 2 ["id", "name"] [("id", "object"), ("name", "object")] := by
  constructor
  · intro c rc cc cn dt h
    obtain ⟨h1, h2, h3⟩ := extract_csv_ok c rc cc cn dt h
    refine ⟨h1, ?_, h2⟩
    intro hlast
    rw [h1, pyLineCount_trailing c hlast]
  · decide

/-- Witness for C7: the line-based row count on the example csv. -/
theorem csv_row_count_line_based_witness :
    (3 : Int) = (pyLineCount csvSample : Int) - 1 :=
  (csv_row_count_line_based.1 csvSample 3 2 ["id", "name"]
    [("id", "object"), ("name", "object")] (by decide)).1

/-- C8: a normally-completing run appends to the history exactly its
session block — one start entry, then one `file_processed` entry per
detected file in detection order, then one complete entry — and a
subsequent run appends its own block after it, so the persisted history
is the ordered concatenation of the sessions' entries, oldest first. -/
theorem history_session_block_shape (inp : RunInput) (st : LoggerState)
    (files : List FileRef) (h : inp.detectRes = .ok files) :
    (run_ingestion inp st).2.history
      = st.history ++ sessionBlock inp.envOf inp.clock files
    ∧ (∀ (files2 : List FileRef) (envOf2 : FileRef → ExtractEnv) (t2 : Nat),
        (run_ingestion ⟨.ok files2, envOf2, t2⟩ (run_ingestion inp st).2).2.history
          = st.history ++ sessionBlock inp.envOf inp.clock files
              ++ sessionBlock envOf2 t2 files2) := by
  obtain ⟨dr, envOf, clock⟩ := inp
  cases dr with
  | error e => simp at h
  | ok fs =>
    simp only [Except.ok.injEq] at h
    subst h
    constructor
    · exact run_ingestion_ok_history fs envOf clock st
    · intro files2 envOf2 t2
      rw [run_ingestion_ok_history files2 envOf2 t2,
        run_ingestion_ok_history fs envOf clock st]

/-- Witness for C8: the concrete history produced by one run over one
file starting from an empty store. -/
theorem history_session_block_shape_witness :
    (run_ingestion ⟨.ok [aCsv], envTable, 9⟩ emptyLogger).2.history
      = emptyLogger.history ++ sessionBlock envTable 9 [aCsv] :=
  (history_session_block_shape ⟨.ok [aCsv], envTable, 9⟩ emptyLogger
    [aCsv] rfl).1

/-- C9: every logger operation keeps the invariant that each record in
the path-keyed metadata table is stored under its own `file_path` value,
so `get_file_metadata` on a present path returns a record whose
`file_path` equals that path. -/
theorem metadata_table_keyed_by_path (st : LoggerState)
    (hst : ∀ kv ∈ st.metadataTable, metaFilePath kv.2 = kv.1)
    (ops : List LogOp) :
    (∀ kv ∈ (applyLogOps st ops).metadataTable, metaFilePath kv.2 = kv.1)
    ∧ (∀ fp md, get_file_metadata fp (applyLogOps st ops) = some md →
        metaFilePath md = fp) := by
  have h1 := applyLogOps_table_keyed ops st hst
  refine ⟨h1, ?_⟩
  intro fp md hm
  simp only [get_file_metadata] at hm
  exact h1 (fp, md) (lookup_mem fp md _ hm)

/-- Witness for C9: the record retrieved for `note.txt` after a concrete
call sequence carries that very path. -/
theorem metadata_table_keyed_by_path_witness :
    metaFilePath mdGood = "data/incoming/note.txt" :=
  (metadata_table_keyed_by_path emptyLogger (by simp [emptyLogger])
    opsSample).2 "data/incoming/note.txt" mdGood (by decide)

/-- C10: when only the checksum read fails, the returned record carries
`checksum = null` with no top-level `error` key, so the pipeline counts
the file as processed and writes the record (null checksum included)
into the metadata table. -/
theorem null_checksum_still_processed (f : FileRef) (env : ExtractEnv)
    (now : Nat) (s : FStat) (e : String) (st0 : LoggerState)
    (h1 : env.statRes = .ok s) (h2 : env.checksumRead = .error e) :
    metaChecksum (extract_metadata f env now) = none
    ∧ hasError (extract_metadata f env now) = false
    ∧ (run_ingestion ⟨.ok [f], fun _ => env, now⟩ st0).1.processedCount = 1
    ∧ (run_ingestion ⟨.ok [f], fun _ => env, now⟩ st0).1.failedCount = 0
    ∧ get_file_metadata f.path
        (run_ingestion ⟨.ok [f], fun _ => env, now⟩ st0).2
        = some (extract_metadata f env now) := by
  have hhe : hasError (extract_metadata f env now) = false := by
    simp [extract_metadata, h1, hasError]
  have hck : metaChecksum (extract_metadata f env now) = none := by
    simp [extract_metadata, h1, metaChecksum, calculate_checksum, h2]
  refine ⟨hck, hhe, ?_, ?_, ?_⟩
  · rw [run_ingestion_ok_summary]
    simp [successCount, List.filter_cons, hhe]
  · rw [run_ingestion_ok_summary]
    simp [failCount, List.filter_cons, hhe]
  · simp only [get_file_metadata]
    rw [run_ingestion_ok_table]
    rw [lookup_runUpserts]
    simp [lastStored, hhe, metaFilePath_extract]

/-- Witness for C10: the concrete checksum-failure run over `note.txt`. -/
theorem null_checksum_still_processed_witness :
    metaChecksum (extract_metadata noteTxt envNoCk 7) = none
    ∧ hasError (extract_metadata noteTxt envNoCk 7) = false
    ∧ (run_ingestion ⟨.ok [noteTxt], fun _ => envNoCk, 7⟩
        emptyLogger).1.processedCount = 1
    ∧ (run_ingestion ⟨.ok [noteTxt], fun _ => envNoCk, 7⟩
        emptyLogger).1.failedCount = 0
    ∧ get_file_metadata noteTxt.path
        (run_ingestion ⟨.ok [noteTxt], fun _ => envNoCk, 7⟩ emptyLogger).2
        = some (extract_metadata noteTxt envNoCk 7) :=
  null_checksum_still_processed noteTxt envNoCk 7 ⟨3, 10, 20⟩
    "Permission denied" emptyLogger rfl rfl
